import Mathlib

/-!
Verification of the benchmark harness (`benchmark.js`).

The development shallowly embeds the harness:

* numbers sampled from the host (`performance.now()`, `os.totalmem()`,
  `os.freemem()`, cpu tick counters) are modelled as rationals supplied by an
  environment record, since the harness only combines them arithmetically;
* `Number.prototype.toFixed(2)` followed by `parseFloat` is modelled by
  `round2` (round to nearest with ties up, at two decimal places);
* the subprocess spawned by `measurePerformance` is modelled by a
  `SpawnBehavior`: either the spawn fails with an OS error (the `error` event)
  or the process emits a sequence of output chunks and closes with an exit
  code (`null` when killed);
* filesystem effects are modelled as a trace of operations over a set of
  existing paths.
-/

namespace Benchmark

/-- Model of `parseFloat(x.toFixed(2))`: round to two decimal places,
ties away from the smaller value (JS `toFixed` picks the larger candidate). -/
def round2 (x : ℚ) : ℚ := (round (x * 100) : ℤ) / 100

/-- Model of JavaScript `haystack.includes(needle)`: substring containment. -/
def strIncludes (s pat : String) : Bool := decide (pat.data <:+: s.data)

/-- One entry of `os.cpus()[i].times`. -/
structure CpuTimes where
  user : ℚ
  nice : ℚ
  sys : ℚ
  idle : ℚ
  irq : ℚ

/-- `getCpuUsage` from `benchmark.js`: average over all cores of
`100 * (1 - idle / total)` computed from cumulative tick counters. -/
def getCpuUsage (cpus : List CpuTimes) : ℚ :=
  let totalIdle := (cpus.map (fun c => c.idle)).sum
  let totalTick := (cpus.map (fun c => c.user + c.nice + c.sys + c.idle + c.irq)).sum
  let avgIdle := totalIdle / (cpus.length : ℚ)
  let avgTotal := totalTick / (cpus.length : ℚ)
  100 * (1 - avgIdle / avgTotal)

/-- Result of `getMemoryUsage` (all figures in MB). -/
structure MemUsage where
  total : ℚ
  free : ℚ
  used : ℚ
  usedPercent : ℚ

/-- `getMemoryUsage` from `benchmark.js`, as a function of the raw
`os.totalmem()` / `os.freemem()` readings (bytes). -/
def getMemoryUsage (totalmem freemem : ℚ) : MemUsage :=
  let totalMem := totalmem / (1024 * 1024)
  let freeMem := freemem / (1024 * 1024)
  let usedMem := totalMem - freeMem
  { total := totalMem
    free := freeMem
    used := usedMem
    usedPercent := round2 (usedMem / totalMem * 100) }

/-- One point-in-time sample of the host: a `performance.now()` reading and
the raw inputs of `getMemoryUsage` / `getCpuUsage`. -/
structure Sample where
  time : ℚ
  totalmem : ℚ
  freemem : ℚ
  cpus : List CpuTimes

/-- State of the `handleOutput` closure in `measurePerformance`: the
accumulated `output` buffer, the `killed` latch, and a ghost counter of how
many times `child.kill('SIGTERM')` has been invoked. -/
structure RunnerState where
  output : String
  killed : Bool
  kills : Nat

/-- Initial state of the output handler: empty buffer, latch down. -/
def initRunnerState : RunnerState := { output := "", killed := false, kills := 0 }

/-- The `handleOutput` closure of `measurePerformance`: append the chunk to
the accumulated buffer; if a truthy kill signal is configured (in JavaScript
the empty string is falsy), the latch is down and the buffer now contains the
signal, raise the latch and send `SIGTERM`. -/
def handleOutput (killSignal : Option String) (s : RunnerState) (chunk : String) :
    RunnerState :=
  let output := s.output ++ chunk
  match killSignal with
  | some sig =>
    if !(sig == "") && (!s.killed && strIncludes output sig) then
      { output := output, killed := true, kills := s.kills + 1 }
    else
      { output := output, killed := s.killed, kills := s.kills }
  | none => { output := output, killed := s.killed, kills := s.kills }

/-- Behaviour of one spawned subprocess: either the spawn itself fails with an
OS error (the child's `error` event) or the child emits a sequence of output
chunks (stdout and stderr interleaved) and closes with an exit code, `none`
standing for JavaScript `null` (process killed by signal). -/
inductive SpawnBehavior where
  | spawnFail (err : String)
  | runs (chunks : List String) (code : Option Int)

/-- Does this behaviour reach the `close` event (spawn succeeded)? -/
def SpawnBehavior.isRuns : SpawnBehavior → Bool
  | .runs _ _ => true
  | .spawnFail _ => false

/-- The output chunks of a behaviour that reaches `close`. -/
def SpawnBehavior.chunksOf : SpawnBehavior → List String
  | .runs chunks _ => chunks
  | .spawnFail _ => []

/-- The exit code of a behaviour that reaches `close`. -/
def SpawnBehavior.codeOf : SpawnBehavior → Option Int
  | .runs _ code => code
  | .spawnFail _ => none

/-- A named, independently-timed phase inside a task. -/
structure SubTaskResult where
  duration_s : ℚ

/-- The record every benchmark task resolves with.  Fields that are absent
from some tasks' JavaScript objects are `Option`s (`none` = field absent);
`exitCode` is doubly optional: `none` = field absent (in-process task),
`some none` = JavaScript `null` (killed), `some (some c)` = exit code `c`. -/
structure TaskResult where
  command : String
  amountOfProcessedItems : Option Nat
  duration_ms : ℚ
  duration_s : ℚ
  startMemory_MB : ℚ
  endMemory_MB : ℚ
  memoryUsage_MB : ℚ
  startCpu_percent : ℚ
  endCpu_percent : ℚ
  exitCode : Option (Option Int)
  output : Option String
  subTasks : Option (List (String × SubTaskResult))

/-- Host samples observed by one `measurePerformance` call: one at spawn time,
one at the `close` event. -/
structure MeasureEnv where
  startS : Sample
  endS : Sample

/-- The record `measurePerformance` resolves with at the `close` event, given
the chunks the child emitted and its exit code. -/
def measurePure (command : String) (args : List String) (env : MeasureEnv)
    (chunks : List String) (code : Option Int) (killSignal : Option String) :
    TaskResult :=
  let startMem := getMemoryUsage env.startS.totalmem env.startS.freemem
  let startCpu := getCpuUsage env.startS.cpus
  let startTime := env.startS.time
  let final := chunks.foldl (handleOutput killSignal) initRunnerState
  let endTime := env.endS.time
  let endMem := getMemoryUsage env.endS.totalmem env.endS.freemem
  let endCpu := getCpuUsage env.endS.cpus
  { command := command ++ " " ++ String.intercalate " " args
    amountOfProcessedItems := none
    duration_ms := endTime - startTime
    duration_s := round2 ((endTime - startTime) / 1000)
    startMemory_MB := startMem.used
    endMemory_MB := endMem.used
    memoryUsage_MB := round2 (endMem.used - startMem.used)
    startCpu_percent := round2 startCpu
    endCpu_percent := round2 endCpu
    exitCode := some code
    output := some final.output
    subTasks := none }

/-- `measurePerformance` from `benchmark.js`.  On a spawn failure the promise
rejects (`Except.error`); otherwise the output chunks are folded through
`handleOutput` and the promise resolves with the timing/resource/exit record
built at the `close` event. -/
def measurePerformance (command : String) (args : List String) (env : MeasureEnv)
    (behavior : SpawnBehavior) (killSignal : Option String) :
    Except String TaskResult :=
  match behavior with
  | .spawnFail err => .error err
  | .runs chunks code => .ok (measurePure command args env chunks code killSignal)

/-- The `for (let i = 5; i * i <= num; i = i + 6)` trial-division loop of
`isPrime` in `runHeavyScript`. -/
def trialLoop (num i : Nat) : Bool :=
  if h : i * i ≤ num then
    if num % i = 0 ∨ num % (i + 2) = 0 then false
    else trialLoop num (i + 6)
  else true
termination_by num + 1 - i
decreasing_by
  have hi : i < num + 1 := by
    rcases Nat.eq_zero_or_pos i with h0 | h1
    · omega
    · have hii : i ≤ i * i := Nat.le_mul_of_pos_left i h1
      omega
  exact Nat.sub_lt_sub_left hi (by omega)

/-- `isPrime` from `runHeavyScript`: trial division by 2, 3 and the 6k±1
candidates up to the square root. -/
def isPrime (num : Nat) : Bool :=
  if num ≤ 1 then false
  else if num ≤ 3 then true
  else if num % 2 = 0 ∨ num % 3 = 0 then false
  else trialLoop num 5

/-- `findPrimes` from `runHeavyScript`: the loop `for (let i = 2; i <= max; i++)`
collecting the numbers accepted by `isPrime`, in increasing order. -/
def findPrimes (max : Nat) : List Nat :=
  (List.range' 2 (max - 1)).filter (fun i => isPrime i)

/-- Decimal string of a natural number, modelling JavaScript template
interpolation of an integer-valued number (e.g. `` `file-${j}.txt` ``). -/
def natRepr (n : Nat) : String :=
  if n = 0 then "0" else String.mk ((Nat.digits 10 n).reverse.map Nat.digitChar)

/-- Contents written to a file, as far as the model distinguishes them. -/
inductive FileData where
  | text (s : String)
  | image (width height : Nat)
  | resizedImage (width : Nat)
  | report (benchmarks : List (String × TaskResult))

/-- One filesystem operation performed by the harness. -/
inductive FsOp where
  | mkdirRec (p : String)
  | writeFile (p : String) (data : FileData)
  | rmRec (p : String)

/-- Model of `path.join(a, b)`. -/
def pathJoin (a b : String) : String := a ++ "/" ++ b

/-- Is path `q` the path `p` itself or inside the directory `p`? -/
def pathWithin (p q : String) : Bool :=
  q == p || decide ((p ++ "/").data <+: q.data)

/-- Interpret one operation over the set of existing paths:
`fs.rm(p, { recursive: true, force: true })` removes `p` and everything
under it. -/
def applyFsOp (fs : List String) : FsOp → List String
  | .mkdirRec p => p :: fs
  | .writeFile p _ => p :: fs
  | .rmRec p => fs.filter (fun q => !pathWithin p q)

/-- Interpret a trace of operations, oldest first. -/
def applyFsOps (fs : List String) (ops : List FsOp) : List String :=
  ops.foldl applyFsOp fs

/-- A subprocess invocation: the command and its argument list. -/
abbrev Invocation := String × List String

/-- Host samples observed by `runFileIoTest`: the bracketing resource samples
and the four `performance.now()` readings around the two phases. -/
structure FileIoEnv where
  startS : Sample
  createStart : ℚ
  createEnd : ℚ
  deleteStart : ℚ
  deleteEnd : ℚ
  endS : Sample

/-- `'a'.repeat(10000)`: the contents of every file written by the file I/O
task. -/
def fileContent : String := String.mk (List.replicate 10000 'a')

/-- The batching loop of `runFileIoTest`
(`for (let i = 0; i < fileCount; i += chunkSize)` with `chunkSize = 500`):
the list of batches, each batch the list of file indices `j` written
concurrently by that batch. -/
def batchLoop (fileCount i : Nat) : List (List Nat) :=
  if h : i < fileCount then
    List.range' i (min (i + 500) fileCount - i) :: batchLoop fileCount (i + 500)
  else []
termination_by fileCount - i
decreasing_by omega

/-- Path of the `j`-th file written by the file I/O task. -/
def fileIoFileName (tempDir : String) (j : Nat) : String :=
  pathJoin tempDir ("file-" ++ natRepr j ++ ".txt")

/-- `runFileIoTest` from `benchmark.js`: make the scratch subdirectory,
write 10000 files in sequential batches of at most 500 concurrent writes,
then remove the subdirectory recursively.  Returns the task record and the
filesystem trace. -/
def runFileIoTest (runTempDir : String) (env : FileIoEnv) :
    TaskResult × List FsOp :=
  let tempDir := pathJoin runTempDir "temp_files"
  let fileCount := 10000
  let createDuration := round2 ((env.createEnd - env.createStart) / 1000)
  let deleteDuration := round2 ((env.deleteEnd - env.deleteStart) / 1000)
  let startMem := getMemoryUsage env.startS.totalmem env.startS.freemem
  let startCpu := getCpuUsage env.startS.cpus
  let endMem := getMemoryUsage env.endS.totalmem env.endS.freemem
  let endCpu := getCpuUsage env.endS.cpus
  let ops := FsOp.mkdirRec tempDir ::
    ((batchLoop fileCount 0).flatten.map
        (fun j => FsOp.writeFile (fileIoFileName tempDir j) (.text fileContent))
      ++ [FsOp.rmRec tempDir])
  ({ command := "File I/O"
     amountOfProcessedItems := some fileCount
     duration_ms := env.endS.time - env.startS.time
     duration_s := round2 ((env.endS.time - env.startS.time) / 1000)
     startMemory_MB := startMem.used
     endMemory_MB := endMem.used
     memoryUsage_MB := round2 (endMem.used - startMem.used)
     startCpu_percent := round2 startCpu
     endCpu_percent := round2 endCpu
     exitCode := none
     output := none
     subTasks := some [("createFiles", ⟨createDuration⟩), ("deleteFiles", ⟨deleteDuration⟩)] },
   ops)

/-- Host samples observed by `runHeavyScript`. -/
structure HeavyEnv where
  startS : Sample
  endS : Sample

/-- `runHeavyScript` from `benchmark.js`: run `findPrimes(1000000)` in
process; no subprocess, no items counter, no subtasks. -/
def runHeavyScript (env : HeavyEnv) : TaskResult :=
  let startMem := getMemoryUsage env.startS.totalmem env.startS.freemem
  let startCpu := getCpuUsage env.startS.cpus
  let maxNumber := 1000000
  let primesFound := findPrimes maxNumber
  let endMem := getMemoryUsage env.endS.totalmem env.endS.freemem
  let endCpu := getCpuUsage env.endS.cpus
  let _ := primesFound.length
  { command := "Heavy Node.js Script (in-process prime calculation)"
    amountOfProcessedItems := none
    duration_ms := env.endS.time - env.startS.time
    duration_s := round2 ((env.endS.time - env.startS.time) / 1000)
    startMemory_MB := startMem.used
    endMemory_MB := endMem.used
    memoryUsage_MB := round2 (endMem.used - startMem.used)
    startCpu_percent := round2 startCpu
    endCpu_percent := round2 endCpu
    exitCode := none
    output := none
    subTasks := none }

/-- Host samples observed by `runImageProcessingTest`. -/
structure ImageEnv where
  startS : Sample
  createStart : ℚ
  createEnd : ℚ
  processStart : ℚ
  processEnd : ℚ
  endS : Sample

/-- Path of the `i`-th generated source image. -/
def imageFileName (tempDir : String) (i : Nat) : String :=
  pathJoin tempDir ("image-" ++ natRepr i ++ ".jpg")

/-- Path of the `i`-th resized output image. -/
def resizedImageFileName (tempDir : String) (i : Nat) : String :=
  pathJoin tempDir ("image-" ++ natRepr i ++ "-resized.jpg")

/-- `runImageProcessingTest` from `benchmark.js`: generate 200 synthetic
2048×2048 images (unbounded concurrency), then resize each to width 800
(unbounded concurrency).  Scratch cleanup is left to the main loop.
The image-transform collaborator (`sharp`) is assumed to succeed for every
input; the trace records the files it produces. -/
def runImageProcessingTest (runTempDir : String) (env : ImageEnv) :
    TaskResult × List FsOp :=
  let tempDir := pathJoin runTempDir "temp_images"
  let imageCount := 200
  let createDuration := round2 ((env.createEnd - env.createStart) / 1000)
  let processDuration := round2 ((env.processEnd - env.processStart) / 1000)
  let startMem := getMemoryUsage env.startS.totalmem env.startS.freemem
  let startCpu := getCpuUsage env.startS.cpus
  let endMem := getMemoryUsage env.endS.totalmem env.endS.freemem
  let endCpu := getCpuUsage env.endS.cpus
  let ops := FsOp.mkdirRec tempDir ::
    ((List.range imageCount).map
        (fun i => FsOp.writeFile (imageFileName tempDir i) (.image 2048 2048))
      ++ (List.range imageCount).map
        (fun i => FsOp.writeFile (resizedImageFileName tempDir i) (.resizedImage 800)))
  ({ command := "Image Processing"
     amountOfProcessedItems := some imageCount
     duration_ms := env.endS.time - env.startS.time
     duration_s := round2 ((env.endS.time - env.startS.time) / 1000)
     startMemory_MB := startMem.used
     endMemory_MB := endMem.used
     memoryUsage_MB := round2 (endMem.used - startMem.used)
     startCpu_percent := round2 startCpu
     endCpu_percent := round2 endCpu
     exitCode := none
     output := none
     subTasks := some [("generateImages", ⟨createDuration⟩), ("resizeImages", ⟨processDuration⟩)] },
   ops)

/-- The argument list of the `npm install` invocations
(`--legacy-peer-deps` appended when the flag is set). -/
def installArgsOf (useLegacyPeerDeps : Bool) : List String :=
  if useLegacyPeerDeps then ["install", "--legacy-peer-deps"] else ["install"]

/-- Host samples observed by `runCleanInstall`. -/
structure CleanInstallEnv where
  startS : Sample
  nodeModulesExists : Bool
  delNodeModulesStart : ℚ
  delNodeModulesEnd : ℚ
  nextExists : Bool
  delNextStart : ℚ
  delNextEnd : ℚ
  cacheEnv : MeasureEnv
  installEnv : MeasureEnv
  endS : Sample

/-- `runCleanInstall` from `benchmark.js`: conditionally delete
`node_modules` and `.next`, run `npm cache clean --force`, then `npm install`
(optionally with `--legacy-peer-deps`).  Returns the task record, the
subprocess invocations and the filesystem trace; rejects if either spawn
fails. -/
def runCleanInstall (env : CleanInstallEnv) (cacheB installB : SpawnBehavior)
    (useLegacyPeerDeps : Bool) :
    Except String (TaskResult × List Invocation × List FsOp) := do
  let nodeModulesDeletionDuration :=
    if env.nodeModulesExists then round2 ((env.delNodeModulesEnd - env.delNodeModulesStart) / 1000) else 0
  let nextFolderDeletionDuration :=
    if env.nextExists then round2 ((env.delNextEnd - env.delNextStart) / 1000) else 0
  let delOps := (if env.nodeModulesExists then [FsOp.rmRec "node_modules"] else [])
    ++ (if env.nextExists then [FsOp.rmRec ".next"] else [])
  let cacheCleanResult ← measurePerformance "npm" ["cache", "clean", "--force"] env.cacheEnv cacheB none
  let npmCacheCleanDuration := cacheCleanResult.duration_s
  let installResult ← measurePerformance "npm" (installArgsOf useLegacyPeerDeps) env.installEnv installB none
  let startMem := getMemoryUsage env.startS.totalmem env.startS.freemem
  let startCpu := getCpuUsage env.startS.cpus
  let endMem := getMemoryUsage env.endS.totalmem env.endS.freemem
  let endCpu := getCpuUsage env.endS.cpus
  .ok ({ command := "Clean Install (cache, folders, install)"
         amountOfProcessedItems := none
         duration_ms := env.endS.time - env.startS.time
         duration_s := round2 ((env.endS.time - env.startS.time) / 1000)
         startMemory_MB := startMem.used
         endMemory_MB := endMem.used
         memoryUsage_MB := round2 (endMem.used - startMem.used)
         startCpu_percent := round2 startCpu
         endCpu_percent := round2 endCpu
         exitCode := none
         output := none
         subTasks := some [("deleteNodeModules", ⟨nodeModulesDeletionDuration⟩),
                           ("deleteNextFolder", ⟨nextFolderDeletionDuration⟩),
                           ("npmCacheClean", ⟨npmCacheCleanDuration⟩),
                           ("npmInstall", ⟨installResult.duration_s⟩)] },
       [("npm", ["cache", "clean", "--force"]), ("npm", installArgsOf useLegacyPeerDeps)],
       delOps)

/-- Environment of `runNextBuild`: whether `.next` exists, and the samples of
its single `measurePerformance` call. -/
structure NextBuildEnv where
  nextExists : Bool
  measureEnv : MeasureEnv

/-- `runNextBuild` from `benchmark.js`: delete `.next` if present, then
`npx next build` through `measurePerformance`. -/
def runNextBuild (env : NextBuildEnv) (b : SpawnBehavior) :
    Except String (TaskResult × List Invocation × List FsOp) := do
  let delOps := if env.nextExists then [FsOp.rmRec ".next"] else []
  let r ← measurePerformance "npx" ["next", "build"] env.measureEnv b none
  .ok (r, [("npx", ["next", "build"])], delOps)

/-- `runTypeScriptCheck` from `benchmark.js`: `npx tsc --noEmit`. -/
def runTypeScriptCheck (env : MeasureEnv) (b : SpawnBehavior) : Except String TaskResult :=
  measurePerformance "npx" ["tsc", "--noEmit"] env b none

/-- `runLinterTest` from `benchmark.js`: `npx next lint`. -/
def runLinterTest (env : MeasureEnv) (b : SpawnBehavior) : Except String TaskResult :=
  measurePerformance "npx" ["next", "lint"] env b none

/-! ### Run orchestrator: the per-run body of `main` -/

/-- The fixed order in which `main` checks `testsToRun` and executes tasks. -/
def catalogOrder : List String :=
  ["cleanInstall", "nextBuild", "typeCheck", "linter", "imageProcessing", "fileIo", "heavyScript"]

/-- All inputs of one iteration of the main loop: the interactive selections,
the host samples for each task, the behaviour of every potential subprocess,
and the identity data composing scratch and result paths. -/
structure RunInputs where
  testsToRun : List String
  useLegacyPeerDeps : Bool
  confirmInstall : Bool
  hostname : String
  runTimestamp : Nat
  cleanEnv : CleanInstallEnv
  cacheB : SpawnBehavior
  installB : SpawnBehavior
  preInstallEnv : MeasureEnv
  preInstallB : SpawnBehavior
  nextBuildEnv : NextBuildEnv
  nextBuildB : SpawnBehavior
  typeCheckEnv : MeasureEnv
  typeCheckB : SpawnBehavior
  linterEnv : MeasureEnv
  linterB : SpawnBehavior
  imageEnv : ImageEnv
  fileIoEnv : FileIoEnv
  heavyEnv : HeavyEnv

/-- Scratch directory of the run (`benchmark-me/temp-<timestamp>`). -/
def runTempDirOf (inp : RunInputs) : String :=
  pathJoin "benchmark-me" ("temp-" ++ natRepr inp.runTimestamp)

/-- Path of the persisted report
(`benchmark-me/results/benchmark-results-<hostname>-<timestamp>.json`). -/
def resultsPathOf (inp : RunInputs) : String :=
  pathJoin (pathJoin "benchmark-me" "results")
    ("benchmark-results-" ++ inp.hostname ++ "-" ++ natRepr inp.runTimestamp ++ ".json")

/-- State threaded through one run: the `results.benchmarks` mapping in
insertion order, the subprocess invocations so far, and the filesystem trace
so far. -/
structure RunState where
  benchmarks : List (String × TaskResult)
  invocations : List Invocation
  fsOps : List FsOp

/-- Were all six potential subprocesses of the run spawnable? -/
def RunInputs.allSpawnOk (inp : RunInputs) : Bool :=
  inp.cacheB.isRuns && inp.installB.isRuns && inp.preInstallB.isRuns &&
  inp.nextBuildB.isRuns && inp.typeCheckB.isRuns && inp.linterB.isRuns

/-- `if (testsToRun.includes('cleanInstall'))` block of `main`. -/
def stepCleanInstall (inp : RunInputs) (s : RunState) : Except String RunState :=
  if inp.testsToRun.contains "cleanInstall" then do
    let t ← runCleanInstall inp.cleanEnv inp.cacheB inp.installB inp.useLegacyPeerDeps
    .ok { benchmarks := s.benchmarks ++ [("cleanInstall", t.1)],
          invocations := s.invocations ++ t.2.1,
          fsOps := s.fsOps ++ t.2.2 }
  else .ok s

/-- `if (testsToRun.includes('nextBuild'))` block of `main`, including the
confirmation-gated plain `npm install` when `cleanInstall` is not selected. -/
def stepNextBuild (inp : RunInputs) (s : RunState) : Except String RunState :=
  if inp.testsToRun.contains "nextBuild" then do
    let s₁ ← if !inp.testsToRun.contains "cleanInstall" then
        if inp.confirmInstall then do
          let _ ← measurePerformance "npm" (installArgsOf inp.useLegacyPeerDeps)
            inp.preInstallEnv inp.preInstallB none
          .ok { s with invocations := s.invocations ++ [("npm", installArgsOf inp.useLegacyPeerDeps)] }
        else .ok s
      else .ok s
    let t ← runNextBuild inp.nextBuildEnv inp.nextBuildB
    .ok { benchmarks := s₁.benchmarks ++ [("nextBuild", t.1)],
          invocations := s₁.invocations ++ t.2.1,
          fsOps := s₁.fsOps ++ t.2.2 }
  else .ok s

/-- `if (testsToRun.includes('typeCheck'))` block of `main`. -/
def stepTypeCheck (inp : RunInputs) (s : RunState) : Except String RunState :=
  if inp.testsToRun.contains "typeCheck" then do
    let r ← runTypeScriptCheck inp.typeCheckEnv inp.typeCheckB
    .ok { s with
          benchmarks := s.benchmarks ++ [("typeCheck", r)]
          invocations := s.invocations ++ [("npx", ["tsc", "--noEmit"])] }
  else .ok s

/-- `if (testsToRun.includes('linter'))` block of `main`. -/
def stepLinter (inp : RunInputs) (s : RunState) : Except String RunState :=
  if inp.testsToRun.contains "linter" then do
    let r ← runLinterTest inp.linterEnv inp.linterB
    .ok { s with
          benchmarks := s.benchmarks ++ [("linter", r)]
          invocations := s.invocations ++ [("npx", ["next", "lint"])] }
  else .ok s

/-- `if (testsToRun.includes('imageProcessing'))` block of `main`
(in-process, cannot reject). -/
def stepImageProcessing (inp : RunInputs) (s : RunState) : RunState :=
  if inp.testsToRun.contains "imageProcessing" then
    let t := runImageProcessingTest (runTempDirOf inp) inp.imageEnv
    { s with
      benchmarks := s.benchmarks ++ [("imageProcessing", t.1)]
      fsOps := s.fsOps ++ t.2 }
  else s

/-- `if (testsToRun.includes('fileIo'))` block of `main`
(in-process, cannot reject). -/
def stepFileIo (inp : RunInputs) (s : RunState) : RunState :=
  if inp.testsToRun.contains "fileIo" then
    let t := runFileIoTest (runTempDirOf inp) inp.fileIoEnv
    { s with
      benchmarks := s.benchmarks ++ [("fileIo", t.1)]
      fsOps := s.fsOps ++ t.2 }
  else s

/-- `if (testsToRun.includes('heavyScript'))` block of `main`
(in-process, cannot reject). -/
def stepHeavyScript (inp : RunInputs) (s : RunState) : RunState :=
  if inp.testsToRun.contains "heavyScript" then
    { s with benchmarks := s.benchmarks ++ [("heavyScript", runHeavyScript inp.heavyEnv)] }
  else s

/-- Everything one run leaves behind: the fully populated `benchmarks`
mapping of its persisted report, the subprocess invocations in order, and
the filesystem trace in order. -/
structure RunOutcome where
  benchmarks : List (String × TaskResult)
  invocations : List Invocation
  fsOps : List FsOp

/-- One iteration of the `for (let i = 1; i <= runCount; i++)` loop of
`main`: make the scratch directory, execute the selected tasks in catalog
order, persist the report, then remove the scratch directory.  Rejects (and
performs no further effects, cleanup included) as soon as a subprocess fails
to spawn. -/
def runOnce (inp : RunInputs) : Except String RunOutcome := do
  let s0 : RunState :=
    { benchmarks := [], invocations := [], fsOps := [FsOp.mkdirRec (runTempDirOf inp)] }
  let s1 ← stepCleanInstall inp s0
  let s2 ← stepNextBuild inp s1
  let s3 ← stepTypeCheck inp s2
  let s4 ← stepLinter inp s3
  let s5 := stepImageProcessing inp s4
  let s6 := stepFileIo inp s5
  let s7 := stepHeavyScript inp s6
  .ok { benchmarks := s7.benchmarks,
        invocations := s7.invocations,
        fsOps := s7.fsOps ++ [FsOp.writeFile (resultsPathOf inp) (.report s7.benchmarks),
                              FsOp.rmRec (runTempDirOf inp)] }

/-- The whole multi-run loop of `main`: runs are strictly sequential and
independent; the loop stops at the first fatal (spawn-level) error. -/
def runMany (inps : List RunInputs) : Except String (List RunOutcome) :=
  inps.mapM runOnce

/-! ### The run under the assumption that every spawn succeeds

`runPure` computes, totally, the outcome `runOnce` resolves with whenever all
subprocesses can be spawned; the bridge lemmas below prove the two agree. -/

/-- Value of `runCleanInstall` when both its spawns succeed. -/
def runCleanInstallPure (env : CleanInstallEnv) (cacheB installB : SpawnBehavior)
    (useLegacyPeerDeps : Bool) : TaskResult × List Invocation × List FsOp :=
  let nodeModulesDeletionDuration :=
    if env.nodeModulesExists then round2 ((env.delNodeModulesEnd - env.delNodeModulesStart) / 1000) else 0
  let nextFolderDeletionDuration :=
    if env.nextExists then round2 ((env.delNextEnd - env.delNextStart) / 1000) else 0
  let delOps := (if env.nodeModulesExists then [FsOp.rmRec "node_modules"] else [])
    ++ (if env.nextExists then [FsOp.rmRec ".next"] else [])
  let cacheCleanResult := measurePure "npm" ["cache", "clean", "--force"] env.cacheEnv
    cacheB.chunksOf cacheB.codeOf none
  let npmCacheCleanDuration := cacheCleanResult.duration_s
  let installResult := measurePure "npm" (installArgsOf useLegacyPeerDeps) env.installEnv
    installB.chunksOf installB.codeOf none
  let startMem := getMemoryUsage env.startS.totalmem env.startS.freemem
  let startCpu := getCpuUsage env.startS.cpus
  let endMem := getMemoryUsage env.endS.totalmem env.endS.freemem
  let endCpu := getCpuUsage env.endS.cpus
  ({ command := "Clean Install (cache, folders, install)"
     amountOfProcessedItems := none
     duration_ms := env.endS.time - env.startS.time
     duration_s := round2 ((env.endS.time - env.startS.time) / 1000)
     startMemory_MB := startMem.used
     endMemory_MB := endMem.used
     memoryUsage_MB := round2 (endMem.used - startMem.used)
     startCpu_percent := round2 startCpu
     endCpu_percent := round2 endCpu
     exitCode := none
     output := none
     subTasks := some [("deleteNodeModules", ⟨nodeModulesDeletionDuration⟩),
                       ("deleteNextFolder", ⟨nextFolderDeletionDuration⟩),
                       ("npmCacheClean", ⟨npmCacheCleanDuration⟩),
                       ("npmInstall", ⟨installResult.duration_s⟩)] },
   [("npm", ["cache", "clean", "--force"]), ("npm", installArgsOf useLegacyPeerDeps)],
   delOps)

/-- Value of `runNextBuild` when its spawn succeeds. -/
def runNextBuildPure (env : NextBuildEnv) (b : SpawnBehavior) :
    TaskResult × List Invocation × List FsOp :=
  (measurePure "npx" ["next", "build"] env.measureEnv b.chunksOf b.codeOf none,
   [("npx", ["next", "build"])],
   if env.nextExists then [FsOp.rmRec ".next"] else [])

/-- Pure form of `stepCleanInstall`. -/
def stepCleanInstallPure (inp : RunInputs) (s : RunState) : RunState :=
  if inp.testsToRun.contains "cleanInstall" then
    let t := runCleanInstallPure inp.cleanEnv inp.cacheB inp.installB inp.useLegacyPeerDeps
    { benchmarks := s.benchmarks ++ [("cleanInstall", t.1)],
      invocations := s.invocations ++ t.2.1,
      fsOps := s.fsOps ++ t.2.2 }
  else s

/-- Pure form of `stepNextBuild`. -/
def stepNextBuildPure (inp : RunInputs) (s : RunState) : RunState :=
  if inp.testsToRun.contains "nextBuild" then
    let s₁ := if !inp.testsToRun.contains "cleanInstall" then
        if inp.confirmInstall then
          { s with invocations := s.invocations ++ [("npm", installArgsOf inp.useLegacyPeerDeps)] }
        else s
      else s
    let t := runNextBuildPure inp.nextBuildEnv inp.nextBuildB
    { benchmarks := s₁.benchmarks ++ [("nextBuild", t.1)],
      invocations := s₁.invocations ++ t.2.1,
      fsOps := s₁.fsOps ++ t.2.2 }
  else s

/-- Pure form of `stepTypeCheck`. -/
def stepTypeCheckPure (inp : RunInputs) (s : RunState) : RunState :=
  if inp.testsToRun.contains "typeCheck" then
    let r := measurePure "npx" ["tsc", "--noEmit"] inp.typeCheckEnv
      inp.typeCheckB.chunksOf inp.typeCheckB.codeOf none
    { s with
      benchmarks := s.benchmarks ++ [("typeCheck", r)]
      invocations := s.invocations ++ [("npx", ["tsc", "--noEmit"])] }
  else s

/-- Pure form of `stepLinter`. -/
def stepLinterPure (inp : RunInputs) (s : RunState) : RunState :=
  if inp.testsToRun.contains "linter" then
    let r := measurePure "npx" ["next", "lint"] inp.linterEnv
      inp.linterB.chunksOf inp.linterB.codeOf none
    { s with
      benchmarks := s.benchmarks ++ [("linter", r)]
      invocations := s.invocations ++ [("npx", ["next", "lint"])] }
  else s

/-- The outcome `runOnce` resolves with when every spawn succeeds. -/
def runPure (inp : RunInputs) : RunOutcome :=
  let s0 : RunState :=
    { benchmarks := [], invocations := [], fsOps := [FsOp.mkdirRec (runTempDirOf inp)] }
  let s1 := stepCleanInstallPure inp s0
  let s2 := stepNextBuildPure inp s1
  let s3 := stepTypeCheckPure inp s2
  let s4 := stepLinterPure inp s3
  let s5 := stepImageProcessing inp s4
  let s6 := stepFileIo inp s5
  let s7 := stepHeavyScript inp s6
  { benchmarks := s7.benchmarks,
    invocations := s7.invocations,
    fsOps := s7.fsOps ++ [FsOp.writeFile (resultsPathOf inp) (.report s7.benchmarks),
                          FsOp.rmRec (runTempDirOf inp)] }

/-! ### Concrete example inputs -/

/-- A degenerate host sample (all readings zero). -/
def sample0 : Sample := { time := 0, totalmem := 0, freemem := 0, cpus := [] }

/-- Measurement environment built from `sample0`. -/
def measureEnv0 : MeasureEnv := { startS := sample0, endS := sample0 }

/-- Clean-install environment built from `sample0`, no directories present. -/
def cleanEnv0 : CleanInstallEnv :=
  { startS := sample0, nodeModulesExists := false, delNodeModulesStart := 0,
    delNodeModulesEnd := 0, nextExists := false, delNextStart := 0, delNextEnd := 0,
    cacheEnv := measureEnv0, installEnv := measureEnv0, endS := sample0 }

/-- Build environment built from `sample0`, `.next` absent. -/
def nextBuildEnv0 : NextBuildEnv := { nextExists := false, measureEnv := measureEnv0 }

/-- Image-processing environment built from `sample0`. -/
def imageEnv0 : ImageEnv :=
  { startS := sample0, createStart := 0, createEnd := 0, processStart := 0,
    processEnd := 0, endS := sample0 }

/-- File-I/O environment built from `sample0`. -/
def fileIoEnv0 : FileIoEnv :=
  { startS := sample0, createStart := 0, createEnd := 0, deleteStart := 0,
    deleteEnd := 0, endS := sample0 }

/-- Heavy-script environment built from `sample0`. -/
def heavyEnv0 : HeavyEnv := { startS := sample0, endS := sample0 }

/-- A heavy-script environment in which free memory grows during the task,
so the memory delta is negative: 1000 MB used before, 900 MB used after. -/
def heavyEnvNeg : HeavyEnv :=
  { startS := { time := 0, totalmem := 1048576000, freemem := 0, cpus := [] }
    endS := { time := 0, totalmem := 1048576000, freemem := 104857600, cpus := [] } }

/-- A subprocess that spawns, emits nothing and exits 0. -/
def behaviorOk : SpawnBehavior := .runs [] (some 0)

/-- Run inputs with the given selection, all subprocesses spawnable, the
confirmation collaborator answering yes, and `sample0` everywhere. -/
def runInputs0 (tests : List String) : RunInputs :=
  { testsToRun := tests, useLegacyPeerDeps := false, confirmInstall := true,
    hostname := "host", runTimestamp := 0, cleanEnv := cleanEnv0,
    cacheB := behaviorOk, installB := behaviorOk, preInstallEnv := measureEnv0,
    preInstallB := behaviorOk, nextBuildEnv := nextBuildEnv0, nextBuildB := behaviorOk,
    typeCheckEnv := measureEnv0, typeCheckB := behaviorOk, linterEnv := measureEnv0,
    linterB := behaviorOk, imageEnv := imageEnv0, fileIoEnv := fileIoEnv0,
    heavyEnv := heavyEnv0 }

/-- Run inputs in which `cleanInstall` is selected but `npm` cannot be
spawned: the cache-clean spawn fails with an OS error. -/
def runInputsFail : RunInputs :=
  { runInputs0 ["cleanInstall"] with cacheB := .spawnFail "spawn npm ENOENT" }

/-! ### Theorems -/

theorem measurePerformance_isRuns {b : SpawnBehavior} (hb : b.isRuns = true)
    (command : String) (args : List String) (env : MeasureEnv) (killSignal : Option String) :
    measurePerformance command args env b killSignal
      = .ok (measurePure command args env b.chunksOf b.codeOf killSignal) := by
  cases b with
  | spawnFail err => exact absurd hb (by simp [SpawnBehavior.isRuns])
  | runs chunks code => rfl

/-! ### Heavy computation task: the prime enumeration of `runHeavyScript` -/

theorem trialLoop_true_of_prime {num : Nat} (hp : Nat.Prime num) :
    ∀ k i, num + 1 - i ≤ k → 5 ≤ i → trialLoop num i = true := by
  intro k
  induction k with
  | zero =>
    intro i hk hi
    rw [trialLoop]
    have hge : num + 1 ≤ i := by omega
    have hii : ¬ i * i ≤ num := by
      nlinarith [Nat.le_mul_of_pos_left i (by omega : 0 < i)]
    rw [dif_neg hii]
  | succ k ih =>
    intro i hk hi
    rw [trialLoop]
    by_cases hii : i * i ≤ num
    · rw [dif_pos hii]
      have hnum : 25 ≤ num := by nlinarith
      have h1 : ¬ num % i = 0 := by
        intro hmod
        have hdvd : i ∣ num := Nat.dvd_of_mod_eq_zero hmod
        rcases (Nat.Prime.eq_one_or_self_of_dvd hp i hdvd) with h | h
        · omega
        · subst h; nlinarith
      have h2 : ¬ num % (i + 2) = 0 := by
        intro hmod
        have hdvd : (i + 2) ∣ num := Nat.dvd_of_mod_eq_zero hmod
        rcases (Nat.Prime.eq_one_or_self_of_dvd hp (i + 2) hdvd) with h | h
        · omega
        · nlinarith
      rw [if_neg (by tauto)]
      exact ih (i + 6) (by omega) (by omega)
    · rw [dif_neg hii]

theorem trialLoop_true_no_divisor {num : Nat} (hn2 : ¬ 2 ∣ num) (hn3 : ¬ 3 ∣ num) :
    ∀ k i, num + 1 - i ≤ k → i % 6 = 5 → trialLoop num i = true →
      ∀ d, i ≤ d → d * d ≤ num → ¬ d ∣ num := by
  intro k
  induction k with
  | zero =>
    intro i hk hmod ht d hid hdd hdvd
    have hge : num + 1 ≤ i := by omega
    nlinarith [Nat.mul_le_mul hid hid, Nat.le_mul_of_pos_left i (by omega : 0 < i)]
  | succ k ih =>
    intro i hk hmod ht d hid hdd hdvd
    rw [trialLoop] at ht
    by_cases hii : i * i ≤ num
    · rw [dif_pos hii] at ht
      by_cases hdiv : num % i = 0 ∨ num % (i + 2) = 0
      · rw [if_pos hdiv] at ht; exact absurd ht (by simp)
      · rw [if_neg hdiv] at ht
        push_neg at hdiv
        obtain ⟨h1, h2⟩ := hdiv
        by_cases hd6 : i + 6 ≤ d
        · exact ih (i + 6) (by omega) (by omega) ht d hd6 hdd hdvd
        · have hcases : d = i ∨ d = i + 1 ∨ d = i + 2 ∨ d = i + 3 ∨ d = i + 4 ∨ d = i + 5 := by
            omega
          have heven : ∀ m, i ≤ m → 2 ∣ m → ¬ m ∣ num := fun m _ hm hmn =>
            hn2 (dvd_trans hm hmn)
          rcases hcases with h | h | h | h | h | h
          · subst h
            exact h1 (Nat.mod_eq_zero_of_dvd hdvd)
          · subst h
            exact heven (i + 1) (by omega) (by omega) hdvd
          · subst h
            exact h2 (Nat.mod_eq_zero_of_dvd hdvd)
          · subst h
            exact heven (i + 3) (by omega) (by omega) hdvd
          · subst h
            exact hn3 (dvd_trans (by omega : (3 : Nat) ∣ i + 4) hdvd)
          · subst h
            exact heven (i + 5) (by omega) (by omega) hdvd
    · nlinarith [Nat.mul_le_mul hid hid]

theorem prime_of_isPrime {num : Nat} (h : isPrime num = true) : Nat.Prime num := by
  unfold isPrime at h
  by_cases h1 : num ≤ 1
  · rw [if_pos h1] at h; exact absurd h (by simp)
  · rw [if_neg h1] at h
    by_cases h3 : num ≤ 3
    · have : num = 2 ∨ num = 3 := by omega
      rcases this with rfl | rfl
      · exact Nat.prime_two
      · exact Nat.prime_three
    · rw [if_neg h3] at h
      by_cases h23 : num % 2 = 0 ∨ num % 3 = 0
      · rw [if_pos h23] at h; exact absurd h (by simp)
      · rw [if_neg h23] at h
        push_neg at h23
        obtain ⟨hm2, hm3⟩ := h23
        by_contra hnp
        have hne1 : num ≠ 1 := by omega
        have hmfp : Nat.Prime num.minFac := Nat.minFac_prime hne1
        have hmfd : num.minFac ∣ num := Nat.minFac_dvd num
        have hsq : num.minFac ^ 2 ≤ num := Nat.minFac_sq_le_self (by omega) hnp
        have hp2 : num.minFac ≠ 2 := by
          intro he
          exact hm2 (Nat.mod_eq_zero_of_dvd (he ▸ hmfd))
        have hp3 : num.minFac ≠ 3 := by
          intro he
          exact hm3 (Nat.mod_eq_zero_of_dvd (he ▸ hmfd))
        have hp5 : 5 ≤ num.minFac := by
          by_contra hlt
          push_neg at hlt
          have h2le := hmfp.two_le
          interval_cases h : num.minFac
          · exact hp2 rfl
          · exact hp3 rfl
          · exact absurd hmfp (by decide)
        exact trialLoop_true_no_divisor
          (fun hd => hm2 (Nat.mod_eq_zero_of_dvd hd))
          (fun hd => hm3 (Nat.mod_eq_zero_of_dvd hd))
          (num + 1 - 5) 5 le_rfl (by decide) h num.minFac hp5 (by nlinarith) hmfd

theorem isPrime_of_prime {num : Nat} (hp : Nat.Prime num) : isPrime num = true := by
  unfold isPrime
  have h2le := hp.two_le
  by_cases h1 : num ≤ 1
  · omega
  · rw [if_neg h1]
    by_cases h3 : num ≤ 3
    · rw [if_pos h3]
    · rw [if_neg h3]
      have hm2 : ¬ num % 2 = 0 := by
        intro hmod
        rcases hp.eq_one_or_self_of_dvd 2 (Nat.dvd_of_mod_eq_zero hmod) with h | h <;> omega
      have hm3 : ¬ num % 3 = 0 := by
        intro hmod
        rcases hp.eq_one_or_self_of_dvd 3 (Nat.dvd_of_mod_eq_zero hmod) with h | h <;> omega
      rw [if_neg (by tauto)]
      exact trialLoop_true_of_prime hp (num + 1 - 5) 5 le_rfl (by omega)

theorem isPrime_iff_prime (num : Nat) : isPrime num = true ↔ Nat.Prime num :=
  ⟨prime_of_isPrime, isPrime_of_prime⟩

theorem mem_findPrimes (max p : Nat) :
    p ∈ findPrimes max ↔ Nat.Prime p ∧ p ≤ max := by
  simp only [findPrimes, List.mem_filter, List.mem_range']
  constructor
  · rintro ⟨⟨i, hi, rfl⟩, hip⟩
    exact ⟨prime_of_isPrime hip, by omega⟩
  · rintro ⟨hp, hle⟩
    have h2 := hp.two_le
    exact ⟨⟨p - 2, by omega, by omega⟩, isPrime_of_prime hp⟩

theorem findPrimes_sorted (max : Nat) :
    List.Sorted (· < ·) (findPrimes max) := by
  have hr : List.Sorted (· < ·) (List.range' 2 (max - 1)) := by
    apply List.chain'_iff_pairwise.mp
    cases h : max - 1 with
    | zero => simp
    | succ n =>
      rw [List.range'_succ]
      exact List.chain_lt_range' 2 n (by omega)
  exact List.Pairwise.sublist (List.filter_sublist _) hr

/-! ### Injectivity of the generated file names -/

theorem natRepr_injective : Function.Injective natRepr := by
  have hjchar : ∀ x y : Fin 10, Nat.digitChar x.val = Nat.digitChar y.val → x = y := by decide
  have hchar : ∀ x y : Nat, x < 10 → y < 10 → Nat.digitChar x = Nat.digitChar y → x = y := by
    intro x y hx hy h
    have := hjchar ⟨x, hx⟩ ⟨y, hy⟩ h
    exact congrArg Fin.val this
  have hmap : ∀ l₁ l₂ : List Nat, (∀ x ∈ l₁, x < 10) → (∀ x ∈ l₂, x < 10) →
      l₁.map Nat.digitChar = l₂.map Nat.digitChar → l₁ = l₂ := by
    intro l₁
    induction l₁ with
    | nil => intro l₂ _ _ h; cases l₂ <;> simp_all
    | cons a t ih =>
      intro l₂ h₁ h₂ h
      cases l₂ with
      | nil => simp_all
      | cons b t₂ =>
        simp only [List.map_cons, List.cons.injEq] at h
        have ha : a = b := hchar a b (h₁ a (by simp)) (h₂ b (by simp)) h.1
        have ht : t = t₂ := ih t₂ (fun x hx => h₁ x (by simp [hx]))
          (fun x hx => h₂ x (by simp [hx])) h.2
        rw [ha, ht]
  have hlast : ∀ n : Nat, n ≠ 0 → (Nat.digits 10 n).reverse.map Nat.digitChar ≠ ['0'] := by
    intro n hn h
    have hne : Nat.digits 10 n ≠ [] := Nat.digits_ne_nil_iff_ne_zero.mpr hn
    have hlen : (Nat.digits 10 n).length = 1 := by
      have := congrArg List.length h
      simpa using this
    obtain ⟨d, hd⟩ := List.length_eq_one.mp hlen
    rw [hd] at h
    simp only [List.reverse_cons, List.reverse_nil, List.nil_append, List.map_cons,
      List.map_nil, List.cons.injEq] at h
    have hdlt : d < 10 := Nat.digits_lt_base (by norm_num) (by rw [hd]; simp)
    have hd0 : d = 0 := hchar d 0 hdlt (by norm_num) (by simpa using h.1)
    have hdne : d ≠ 0 := by simpa [hd] using Nat.getLast_digit_ne_zero 10 hn
    exact hdne hd0
  intro a b h
  unfold natRepr at h
  by_cases ha : a = 0 <;> by_cases hb : b = 0
  · omega
  · rw [if_pos ha, if_neg hb] at h
    have hdat : (Nat.digits 10 b).reverse.map Nat.digitChar = ['0'] :=
      (congrArg String.data h).symm
    exact absurd hdat (hlast b hb)
  · rw [if_neg ha, if_pos hb] at h
    have hdat : (Nat.digits 10 a).reverse.map Nat.digitChar = ['0'] :=
      congrArg String.data h
    exact absurd hdat (hlast a ha)
  · rw [if_neg ha, if_neg hb] at h
    have hd : (Nat.digits 10 a).reverse.map Nat.digitChar
        = (Nat.digits 10 b).reverse.map Nat.digitChar :=
      congrArg String.data h
    have hrev : (Nat.digits 10 a).reverse = (Nat.digits 10 b).reverse := by
      apply hmap
      · intro x hx
        exact Nat.digits_lt_base (by norm_num) (List.mem_reverse.mp hx)
      · intro x hx
        exact Nat.digits_lt_base (by norm_num) (List.mem_reverse.mp hx)
      · exact hd
    have : Nat.digits 10 a = Nat.digits 10 b := List.reverse_injective hrev
    exact Nat.digits_inj_iff.mp this

/-- Injectivity of decimal interpolation inside a fixed file-name template. -/
theorem template_injective (pre suf : String) :
    Function.Injective (fun n => pre ++ natRepr n ++ suf) := by
  intro a b h
  apply natRepr_injective
  apply String.ext
  have hdata := congrArg String.data h
  simp only [String.data_append] at hdata
  have h1 := (List.append_left_inj suf.data).mp hdata
  exact (List.append_right_inj pre.data).mp h1

/-! ### Bridging the run to its spawn-success form -/

theorem ok_bind {α β : Type} (a : α) (f : α → Except String β) :
    (Except.ok a >>= f) = f a := rfl

theorem runCleanInstall_isRuns {cacheB installB : SpawnBehavior}
    (h1 : cacheB.isRuns = true) (h2 : installB.isRuns = true)
    (env : CleanInstallEnv) (useLegacyPeerDeps : Bool) :
    runCleanInstall env cacheB installB useLegacyPeerDeps
      = .ok (runCleanInstallPure env cacheB installB useLegacyPeerDeps) := by
  cases cacheB with
  | spawnFail e => exact absurd h1 (by simp [SpawnBehavior.isRuns])
  | runs ch c =>
    cases installB with
    | spawnFail e => exact absurd h2 (by simp [SpawnBehavior.isRuns])
    | runs ch2 c2 => rfl

theorem runNextBuild_isRuns {b : SpawnBehavior} (hb : b.isRuns = true) (env : NextBuildEnv) :
    runNextBuild env b = .ok (runNextBuildPure env b) := by
  cases b with
  | spawnFail e => exact absurd hb (by simp [SpawnBehavior.isRuns])
  | runs ch c => rfl

theorem stepCleanInstall_isRuns {inp : RunInputs}
    (h1 : inp.cacheB.isRuns = true) (h2 : inp.installB.isRuns = true) (s : RunState) :
    stepCleanInstall inp s = .ok (stepCleanInstallPure inp s) := by
  unfold stepCleanInstall stepCleanInstallPure
  cases hc : inp.testsToRun.contains "cleanInstall"
  · simp
  · simp only [if_pos rfl]
    rw [runCleanInstall_isRuns h1 h2]
    rfl

theorem stepNextBuild_isRuns {inp : RunInputs}
    (h3 : inp.preInstallB.isRuns = true) (h4 : inp.nextBuildB.isRuns = true) (s : RunState) :
    stepNextBuild inp s = .ok (stepNextBuildPure inp s) := by
  unfold stepNextBuild stepNextBuildPure
  cases hnb : inp.testsToRun.contains "nextBuild"
  · simp
  · simp only [if_pos rfl]
    rw [runNextBuild_isRuns h4]
    cases hci : inp.testsToRun.contains "cleanInstall"
    · cases hcf : inp.confirmInstall
      · simp only [hci, Bool.not_false, if_pos rfl, hcf, Bool.false_eq_true, if_neg, ok_bind,
          ite_false]
        rfl
      · simp only [hci, Bool.not_false, if_pos rfl, hcf, ite_true]
        rw [measurePerformance_isRuns h3]
        rfl
    · simp only [hci, Bool.not_true, Bool.false_eq_true, ite_false, ok_bind]
      rfl

theorem stepTypeCheck_isRuns {inp : RunInputs} (h5 : inp.typeCheckB.isRuns = true)
    (s : RunState) : stepTypeCheck inp s = .ok (stepTypeCheckPure inp s) := by
  unfold stepTypeCheck stepTypeCheckPure runTypeScriptCheck
  cases hc : inp.testsToRun.contains "typeCheck"
  · simp
  · simp only [if_pos rfl]
    rw [measurePerformance_isRuns h5]
    rfl

theorem stepLinter_isRuns {inp : RunInputs} (h6 : inp.linterB.isRuns = true)
    (s : RunState) : stepLinter inp s = .ok (stepLinterPure inp s) := by
  unfold stepLinter stepLinterPure runLinterTest
  cases hc : inp.testsToRun.contains "linter"
  · simp
  · simp only [if_pos rfl]
    rw [measurePerformance_isRuns h6]
    rfl

theorem runOnce_allSpawnOk {inp : RunInputs} (h : inp.allSpawnOk = true) :
    runOnce inp = .ok (runPure inp) := by
  unfold RunInputs.allSpawnOk at h
  simp only [Bool.and_eq_true] at h
  obtain ⟨⟨⟨⟨⟨h1, h2⟩, h3⟩, h4⟩, h5⟩, h6⟩ := h
  unfold runOnce runPure
  simp only [stepCleanInstall_isRuns h1 h2, ok_bind, stepNextBuild_isRuns h3 h4,
    stepTypeCheck_isRuns h5, stepLinter_isRuns h6]

theorem runMany_singleton {inp : RunInputs} {o : RunOutcome} (h : runOnce inp = .ok o) :
    runMany [inp] = .ok [o] := by
  simp [runMany, List.mapM, List.mapM.loop, h]

/-! ### The kill latch of `handleOutput` -/

theorem handleOutput_output (ks : Option String) (s : RunnerState) (c : String) :
    (handleOutput ks s c).output = s.output ++ c := by
  unfold handleOutput
  cases ks with
  | none => rfl
  | some sig =>
    dsimp only
    split <;> rfl

theorem strIncludes_append (s c sig : String) (h : strIncludes s sig = true) :
    strIncludes (s ++ c) sig = true := by
  simp only [strIncludes, decide_eq_true_eq] at h ⊢
  refine h.trans ⟨[], c.data, ?_⟩
  simp

theorem strIncludes_empty_left {sig : String} (h : sig ≠ "") :
    strIncludes "" sig = false := by
  simp only [strIncludes, decide_eq_false_iff_not]
  intro hin
  exact h (String.ext (List.infix_nil.mp hin))

theorem handleOutput_step_inv {sig : String} (hsig : sig ≠ "") {s : RunnerState}
    (h1 : s.kills = if s.killed then 1 else 0)
    (h2 : s.killed = true ↔ strIncludes s.output sig = true) (c : String) :
    ((handleOutput (some sig) s c).kills
        = if (handleOutput (some sig) s c).killed then 1 else 0)
    ∧ ((handleOutput (some sig) s c).killed = true
        ↔ strIncludes (handleOutput (some sig) s c).output sig = true) := by
  have hsigb : (sig == "") = false := by
    simp [hsig]
  unfold handleOutput
  dsimp only
  cases hk : s.killed
  · rw [hk] at h1
    simp at h1
    cases hin : strIncludes (s.output ++ c) sig
    · simp [hsigb, hk, hin, h1]
    · simp [hsigb, hk, hin, h1]
  · have hout : strIncludes s.output sig = true := h2.mp hk
    have hmon := strIncludes_append s.output c sig hout
    rw [hk] at h1
    simp at h1
    simp [hsigb, hk, hmon, h1]

theorem handleOutput_fold_inv {sig : String} (hsig : sig ≠ "") (chunks : List String) :
    ∀ s : RunnerState, s.kills = (if s.killed then 1 else 0) →
      (s.killed = true ↔ strIncludes s.output sig = true) →
      ((chunks.foldl (handleOutput (some sig)) s).kills
          = if (chunks.foldl (handleOutput (some sig)) s).killed then 1 else 0)
      ∧ ((chunks.foldl (handleOutput (some sig)) s).killed = true
          ↔ strIncludes (chunks.foldl (handleOutput (some sig)) s).output sig = true) := by
  induction chunks with
  | nil => intro s h1 h2; exact ⟨h1, h2⟩
  | cons c rest ih =>
    intro s h1 h2
    simp only [List.foldl_cons]
    obtain ⟨g1, g2⟩ := handleOutput_step_inv hsig h1 h2 c
    exact ih _ g1 g2

/-! ### The batching loop of the file I/O task -/

theorem batchLoop_flatten (fileCount : Nat) :
    ∀ k i, fileCount - i ≤ k →
      (batchLoop fileCount i).flatten = List.range' i (fileCount - i) := by
  intro k
  induction k with
  | zero =>
    intro i hk
    rw [batchLoop]
    rw [dif_neg (by omega)]
    have : fileCount - i = 0 := by omega
    simp [this]
  | succ k ih =>
    intro i hk
    rw [batchLoop]
    by_cases hi : i < fileCount
    · rw [dif_pos hi]
      rw [List.flatten_cons, ih (i + 500) (by omega)]
      by_cases h5 : i + 500 ≤ fileCount
      · have hmin : min (i + 500) fileCount - i = 500 := by omega
        rw [hmin]
        have := List.range'_append_1 i 500 (fileCount - (i + 500))
        rw [this]
        congr 1
        omega
      · have hmin : min (i + 500) fileCount - i = fileCount - i := by omega
        have hz : fileCount - (i + 500) = 0 := by omega
        rw [hmin, hz]
        simp
    · rw [dif_neg hi]
      have : fileCount - i = 0 := by omega
      simp [this]

theorem batchLoop_batch_le (fileCount : Nat) :
    ∀ k i, fileCount - i ≤ k → ∀ b ∈ batchLoop fileCount i, b.length ≤ 500 := by
  intro k
  induction k with
  | zero =>
    intro i hk b hb
    rw [batchLoop, dif_neg (by omega)] at hb
    simp at hb
  | succ k ih =>
    intro i hk b hb
    rw [batchLoop] at hb
    by_cases hi : i < fileCount
    · rw [dif_pos hi] at hb
      rcases List.mem_cons.mp hb with h | h
      · subst h
        rw [List.length_range']
        omega
      · exact ih (i + 500) (by omega) b h
    · rw [dif_neg hi] at hb
      simp at hb

/-! ### Filesystem traces -/

theorem applyFsOps_append (fs : List String) (ops₁ ops₂ : List FsOp) :
    applyFsOps fs (ops₁ ++ ops₂) = applyFsOps (applyFsOps fs ops₁) ops₂ :=
  List.foldl_append ..

theorem pathWithin_self (p : String) : pathWithin p p = true := by
  simp [pathWithin]

theorem pathWithin_pathJoin (p b : String) : pathWithin p (pathJoin p b) = true := by
  simp only [pathWithin, pathJoin, Bool.or_eq_true, decide_eq_true_eq]
  right
  exact ⟨b.data, by simp⟩

theorem not_mem_rmRec {fs : List String} {p q : String}
    (h : pathWithin p q = true) : q ∉ applyFsOp fs (.rmRec p) := by
  intro hmem
  unfold applyFsOp at hmem
  have := List.mem_filter.mp hmem
  rw [h] at this
  simp at this

theorem mem_applyFsOps_no_rm (ops : List FsOp) (hno : ∀ p, FsOp.rmRec p ∉ ops) :
    ∀ fs q, q ∈ fs → q ∈ applyFsOps fs ops := by
  induction ops with
  | nil => intro fs q h; exact h
  | cons op rest ih =>
    intro fs q h
    have hno' : ∀ p, FsOp.rmRec p ∉ rest := fun p hp => hno p (List.mem_cons_of_mem _ hp)
    have hq : q ∈ applyFsOp fs op := by
      cases op with
      | mkdirRec p => exact List.mem_cons_of_mem _ h
      | writeFile p d => exact List.mem_cons_of_mem _ h
      | rmRec p => exact absurd (List.mem_cons_self _ _) (hno p)
    exact ih hno' _ q hq

theorem mem_applyFsOps_of_write (ops : List FsOp) (hno : ∀ p, FsOp.rmRec p ∉ ops)
    {q : String} {d : FileData} (hw : FsOp.writeFile q d ∈ ops) :
    ∀ fs, q ∈ applyFsOps fs ops := by
  induction ops with
  | nil => simp at hw
  | cons op rest ih =>
    intro fs
    have hno' : ∀ p, FsOp.rmRec p ∉ rest := fun p hp => hno p (List.mem_cons_of_mem _ hp)
    rcases List.mem_cons.mp hw with h | h
    · subst h
      exact mem_applyFsOps_no_rm rest hno' _ q (List.mem_cons_self _ _)
    · exact ih hno' h (applyFsOp fs op)

/-! ### Shape of the state after each orchestrator step -/

theorem stepCleanInstallPure_benchmarks (inp : RunInputs) (s : RunState) :
    (stepCleanInstallPure inp s).benchmarks = s.benchmarks
      ++ (if inp.testsToRun.contains "cleanInstall" then
            [("cleanInstall",
              (runCleanInstallPure inp.cleanEnv inp.cacheB inp.installB inp.useLegacyPeerDeps).1)]
          else []) := by
  unfold stepCleanInstallPure
  split <;> simp

theorem stepCleanInstallPure_invocations (inp : RunInputs) (s : RunState) :
    (stepCleanInstallPure inp s).invocations = s.invocations
      ++ (if inp.testsToRun.contains "cleanInstall" then
            (runCleanInstallPure inp.cleanEnv inp.cacheB inp.installB inp.useLegacyPeerDeps).2.1
          else []) := by
  unfold stepCleanInstallPure
  split <;> simp

theorem stepCleanInstallPure_fsOps (inp : RunInputs) (s : RunState) :
    (stepCleanInstallPure inp s).fsOps = s.fsOps
      ++ (if inp.testsToRun.contains "cleanInstall" then
            (runCleanInstallPure inp.cleanEnv inp.cacheB inp.installB inp.useLegacyPeerDeps).2.2
          else []) := by
  unfold stepCleanInstallPure
  split <;> simp

theorem stepNextBuildPure_benchmarks (inp : RunInputs) (s : RunState) :
    (stepNextBuildPure inp s).benchmarks = s.benchmarks
      ++ (if inp.testsToRun.contains "nextBuild" then
            [("nextBuild", (runNextBuildPure inp.nextBuildEnv inp.nextBuildB).1)]
          else []) := by
  unfold stepNextBuildPure
  split
  · split
    · split <;> simp
    · simp
  · simp

theorem stepNextBuildPure_invocations (inp : RunInputs) (s : RunState) :
    (stepNextBuildPure inp s).invocations = s.invocations
      ++ (if inp.testsToRun.contains "nextBuild" then
            (if !inp.testsToRun.contains "cleanInstall" then
              (if inp.confirmInstall then [("npm", installArgsOf inp.useLegacyPeerDeps)] else [])
             else [])
            ++ (runNextBuildPure inp.nextBuildEnv inp.nextBuildB).2.1
          else []) := by
  unfold stepNextBuildPure
  split
  · split
    · split <;> simp
    · simp
  · simp

theorem stepNextBuildPure_fsOps (inp : RunInputs) (s : RunState) :
    (stepNextBuildPure inp s).fsOps = s.fsOps
      ++ (if inp.testsToRun.contains "nextBuild" then
            (runNextBuildPure inp.nextBuildEnv inp.nextBuildB).2.2
          else []) := by
  unfold stepNextBuildPure
  split
  · split
    · split <;> simp
    · simp
  · simp

theorem stepTypeCheckPure_benchmarks (inp : RunInputs) (s : RunState) :
    (stepTypeCheckPure inp s).benchmarks = s.benchmarks
      ++ (if inp.testsToRun.contains "typeCheck" then
            [("typeCheck", measurePure "npx" ["tsc", "--noEmit"] inp.typeCheckEnv
              inp.typeCheckB.chunksOf inp.typeCheckB.codeOf none)]
          else []) := by
  unfold stepTypeCheckPure
  split <;> simp

theorem stepTypeCheckPure_invocations (inp : RunInputs) (s : RunState) :
    (stepTypeCheckPure inp s).invocations = s.invocations
      ++ (if inp.testsToRun.contains "typeCheck" then [("npx", ["tsc", "--noEmit"])] else []) := by
  unfold stepTypeCheckPure
  split <;> simp

theorem stepTypeCheckPure_fsOps (inp : RunInputs) (s : RunState) :
    (stepTypeCheckPure inp s).fsOps = s.fsOps := by
  unfold stepTypeCheckPure
  split <;> simp

theorem stepLinterPure_benchmarks (inp : RunInputs) (s : RunState) :
    (stepLinterPure inp s).benchmarks = s.benchmarks
      ++ (if inp.testsToRun.contains "linter" then
            [("linter", measurePure "npx" ["next", "lint"] inp.linterEnv
              inp.linterB.chunksOf inp.linterB.codeOf none)]
          else []) := by
  unfold stepLinterPure
  split <;> simp

theorem stepLinterPure_invocations (inp : RunInputs) (s : RunState) :
    (stepLinterPure inp s).invocations = s.invocations
      ++ (if inp.testsToRun.contains "linter" then [("npx", ["next", "lint"])] else []) := by
  unfold stepLinterPure
  split <;> simp

theorem stepLinterPure_fsOps (inp : RunInputs) (s : RunState) :
    (stepLinterPure inp s).fsOps = s.fsOps := by
  unfold stepLinterPure
  split <;> simp

theorem stepImageProcessing_benchmarks (inp : RunInputs) (s : RunState) :
    (stepImageProcessing inp s).benchmarks = s.benchmarks
      ++ (if inp.testsToRun.contains "imageProcessing" then
            [("imageProcessing", (runImageProcessingTest (runTempDirOf inp) inp.imageEnv).1)]
          else []) := by
  unfold stepImageProcessing
  split <;> simp

theorem stepImageProcessing_invocations (inp : RunInputs) (s : RunState) :
    (stepImageProcessing inp s).invocations = s.invocations := by
  unfold stepImageProcessing
  split <;> simp

theorem stepImageProcessing_fsOps (inp : RunInputs) (s : RunState) :
    (stepImageProcessing inp s).fsOps = s.fsOps
      ++ (if inp.testsToRun.contains "imageProcessing" then
            (runImageProcessingTest (runTempDirOf inp) inp.imageEnv).2
          else []) := by
  unfold stepImageProcessing
  split <;> simp

theorem stepFileIo_benchmarks (inp : RunInputs) (s : RunState) :
    (stepFileIo inp s).benchmarks = s.benchmarks
      ++ (if inp.testsToRun.contains "fileIo" then
            [("fileIo", (runFileIoTest (runTempDirOf inp) inp.fileIoEnv).1)]
          else []) := by
  unfold stepFileIo
  split <;> simp

theorem stepFileIo_invocations (inp : RunInputs) (s : RunState) :
    (stepFileIo inp s).invocations = s.invocations := by
  unfold stepFileIo
  split <;> simp

theorem stepFileIo_fsOps (inp : RunInputs) (s : RunState) :
    (stepFileIo inp s).fsOps = s.fsOps
      ++ (if inp.testsToRun.contains "fileIo" then
            (runFileIoTest (runTempDirOf inp) inp.fileIoEnv).2
          else []) := by
  unfold stepFileIo
  split <;> simp

theorem stepHeavyScript_benchmarks (inp : RunInputs) (s : RunState) :
    (stepHeavyScript inp s).benchmarks = s.benchmarks
      ++ (if inp.testsToRun.contains "heavyScript" then
            [("heavyScript", runHeavyScript inp.heavyEnv)]
          else []) := by
  unfold stepHeavyScript
  split <;> simp

theorem stepHeavyScript_invocations (inp : RunInputs) (s : RunState) :
    (stepHeavyScript inp s).invocations = s.invocations := by
  unfold stepHeavyScript
  split <;> simp

theorem stepHeavyScript_fsOps (inp : RunInputs) (s : RunState) :
    (stepHeavyScript inp s).fsOps = s.fsOps := by
  unfold stepHeavyScript
  split <;> simp

/-! ### Shape of a completed run -/

theorem runPure_benchmark_keys (inp : RunInputs) :
    (runPure inp).benchmarks.map Prod.fst
      = catalogOrder.filter (fun k => inp.testsToRun.contains k) := by
  unfold runPure catalogOrder
  simp only [stepHeavyScript_benchmarks, stepFileIo_benchmarks, stepImageProcessing_benchmarks,
    stepLinterPure_benchmarks, stepTypeCheckPure_benchmarks, stepNextBuildPure_benchmarks,
    stepCleanInstallPure_benchmarks, List.nil_append, List.filter_cons, List.filter_nil]
  cases h1 : inp.testsToRun.contains "cleanInstall" <;>
    cases h2 : inp.testsToRun.contains "nextBuild" <;>
    cases h3 : inp.testsToRun.contains "typeCheck" <;>
    cases h4 : inp.testsToRun.contains "linter" <;>
    cases h5 : inp.testsToRun.contains "imageProcessing" <;>
    cases h6 : inp.testsToRun.contains "fileIo" <;>
    cases h7 : inp.testsToRun.contains "heavyScript" <;>
    simp

theorem runPure_fsOps_last (inp : RunInputs) :
    (runPure inp).fsOps.getLast? = some (FsOp.rmRec (runTempDirOf inp)) := by
  unfold runPure
  simp [List.getLast?_append]

theorem runPure_persist_mem (inp : RunInputs) :
    FsOp.writeFile (resultsPathOf inp) (.report (runPure inp).benchmarks)
      ∈ (runPure inp).fsOps := by
  unfold runPure
  simp

theorem runPure_invocations (inp : RunInputs) :
    (runPure inp).invocations =
      (if inp.testsToRun.contains "cleanInstall" then
        [("npm", ["cache", "clean", "--force"]), ("npm", installArgsOf inp.useLegacyPeerDeps)]
       else [])
      ++ ((if inp.testsToRun.contains "nextBuild" then
            (if !inp.testsToRun.contains "cleanInstall" then
              (if inp.confirmInstall then [("npm", installArgsOf inp.useLegacyPeerDeps)] else [])
             else [])
            ++ [("npx", ["next", "build"])]
           else [])
      ++ ((if inp.testsToRun.contains "typeCheck" then [("npx", ["tsc", "--noEmit"])] else [])
      ++ (if inp.testsToRun.contains "linter" then [("npx", ["next", "lint"])] else []))) := by
  unfold runPure
  simp only [stepHeavyScript_invocations, stepFileIo_invocations, stepImageProcessing_invocations,
    stepLinterPure_invocations, stepTypeCheckPure_invocations, stepNextBuildPure_invocations,
    stepCleanInstallPure_invocations, List.nil_append]
  cases h1 : inp.testsToRun.contains "cleanInstall" <;>
    cases h2 : inp.testsToRun.contains "nextBuild" <;>
    cases h3 : inp.testsToRun.contains "typeCheck" <;>
    cases h4 : inp.testsToRun.contains "linter" <;>
    cases hc : inp.confirmInstall <;>
    simp [runCleanInstallPure, runNextBuildPure]

theorem round2_nonneg {x : ℚ} (h : 0 ≤ x) : 0 ≤ round2 x := by
  unfold round2
  have h100 : (0 : ℚ) ≤ x * 100 := by nlinarith
  have hr : (0 : ℤ) ≤ round (x * 100) := by
    rw [round_eq]
    exact Int.floor_nonneg.mpr (by linarith)
  have : (0 : ℚ) ≤ ((round (x * 100) : ℤ) : ℚ) := by exact_mod_cast hr
  positivity

theorem fileIoFileName_injective (tempDir : String) :
    Function.Injective (fileIoFileName tempDir) := by
  intro a b h
  apply template_injective (tempDir ++ "/" ++ "file-") ".txt"
  show (tempDir ++ "/" ++ "file-") ++ natRepr a ++ ".txt"
      = (tempDir ++ "/" ++ "file-") ++ natRepr b ++ ".txt"
  unfold fileIoFileName pathJoin at h
  apply String.ext
  have hd := congrArg String.data h
  simp only [String.data_append, List.append_assoc] at hd ⊢
  exact hd

theorem resizedImageFileName_injective (tempDir : String) :
    Function.Injective (resizedImageFileName tempDir) := by
  intro a b h
  apply template_injective (tempDir ++ "/" ++ "image-") "-resized.jpg"
  show (tempDir ++ "/" ++ "image-") ++ natRepr a ++ "-resized.jpg"
      = (tempDir ++ "/" ++ "image-") ++ natRepr b ++ "-resized.jpg"
  unfold resizedImageFileName pathJoin at h
  apply String.ext
  have hd := congrArg String.data h
  simp only [String.data_append, List.append_assoc] at hd ⊢
  exact hd

theorem applyFsOps_cons (fs : List String) (op : FsOp) (ops : List FsOp) :
    applyFsOps fs (op :: ops) = applyFsOps (applyFsOp fs op) ops := rfl

theorem applyFsOps_single (fs : List String) (op : FsOp) :
    applyFsOps fs [op] = applyFsOp fs op := rfl

/-! ### Claim theorems -/

/-- C1: for every ProcessRunner invocation with a (nonempty) trigger
substring, the termination signal is sent at most once over any stream of
output chunks, and exactly once precisely when the accumulated buffer ever
contains the substring — no matter how many chunks contain it — because the
boolean latch is raised with the first signal.  The final buffer is what
`measurePerformance` reports as `output`. -/
theorem C1_trigger_kills_exactly_once (sig : String) (chunks : List String)
    (hsig : sig ≠ "") :
    ((chunks.foldl (handleOutput (some sig)) initRunnerState).kills ≤ 1)
    ∧ ((chunks.foldl (handleOutput (some sig)) initRunnerState).kills = 1
        ↔ strIncludes (chunks.foldl (handleOutput (some sig)) initRunnerState).output sig
            = true)
    ∧ (∀ command args env code,
        (measurePure command args env chunks code (some sig)).output
          = some (chunks.foldl (handleOutput (some sig)) initRunnerState).output) := by
  have hinit1 : initRunnerState.kills = if initRunnerState.killed then 1 else 0 := rfl
  have hinit2 : initRunnerState.killed = true
      ↔ strIncludes initRunnerState.output sig = true := by
    simp [initRunnerState, strIncludes_empty_left hsig]
  obtain ⟨g1, g2⟩ := handleOutput_fold_inv hsig chunks initRunnerState hinit1 hinit2
  refine ⟨?_, ?_, fun _ _ _ _ => rfl⟩
  · rw [g1]; split <;> omega
  · rw [g1]
    cases hkd : (chunks.foldl (handleOutput (some sig)) initRunnerState).killed
    · rw [hkd] at g2
      constructor
      · intro h; simp at h
      · intro hin
        exact absurd (g2.mpr hin) (by simp)
    · rw [hkd] at g2
      exact ⟨fun _ => g2.mp rfl, fun _ => by simp⟩

/-- Witness for C1 at a concrete trigger and chunk stream: the substring
appears (split across chunks, and again later), and the signal count is 1. -/
theorem C1_witness :
    ("ready" : String) ≠ ""
    ∧ (((["re", "ady to go", "ready again"].foldl (handleOutput (some "ready"))
          initRunnerState).kills ≤ 1)
      ∧ ((["re", "ady to go", "ready again"].foldl (handleOutput (some "ready"))
          initRunnerState).kills = 1
          ↔ strIncludes (["re", "ady to go", "ready again"].foldl (handleOutput (some "ready"))
              initRunnerState).output "ready" = true)
      ∧ (∀ command args env code,
          (measurePure command args env ["re", "ady to go", "ready again"] code
            (some "ready")).output
            = some (["re", "ady to go", "ready again"].foldl (handleOutput (some "ready"))
                initRunnerState).output))
    ∧ (["re", "ady to go", "ready again"].foldl (handleOutput (some "ready"))
        initRunnerState).kills = 1 := by
  have h := C1_trigger_kills_exactly_once "ready" ["re", "ady to go", "ready again"] (by decide)
  exact ⟨by decide, h, h.2.1.mpr (by decide)⟩

/-- C2: for every completed task record — those resolved by
`measurePerformance` and those of the in-process and composite tasks — the
recorded memory delta equals the end memory reading minus the start memory
reading rounded to two decimals, and it can be negative. -/
theorem C2_memory_delta :
    (∀ command args env chunks code killSignal,
      (measurePure command args env chunks code killSignal).memoryUsage_MB
        = round2 ((measurePure command args env chunks code killSignal).endMemory_MB
            - (measurePure command args env chunks code killSignal).startMemory_MB))
    ∧ (∀ env cacheB installB flag,
      (runCleanInstallPure env cacheB installB flag).1.memoryUsage_MB
        = round2 ((runCleanInstallPure env cacheB installB flag).1.endMemory_MB
            - (runCleanInstallPure env cacheB installB flag).1.startMemory_MB))
    ∧ (∀ dir env, (runFileIoTest dir env).1.memoryUsage_MB
        = round2 ((runFileIoTest dir env).1.endMemory_MB
            - (runFileIoTest dir env).1.startMemory_MB))
    ∧ (∀ dir env, (runImageProcessingTest dir env).1.memoryUsage_MB
        = round2 ((runImageProcessingTest dir env).1.endMemory_MB
            - (runImageProcessingTest dir env).1.startMemory_MB))
    ∧ (∀ env, (runHeavyScript env).memoryUsage_MB
        = round2 ((runHeavyScript env).endMemory_MB - (runHeavyScript env).startMemory_MB))
    ∧ (runHeavyScript heavyEnvNeg).memoryUsage_MB < 0 := by
  refine ⟨fun _ _ _ _ _ _ => rfl, fun _ _ _ _ => rfl, fun _ _ => rfl, fun _ _ => rfl,
    fun _ => rfl, ?_⟩
  show round2 ((getMemoryUsage 1048576000 104857600).used
      - (getMemoryUsage 1048576000 0).used) < 0
  norm_num [getMemoryUsage, round2, round_eq]

/-- C3: a child that spawns and exits with a non-zero, non-null code makes
`measurePerformance` resolve (not reject) with that code recorded; it rejects
with the underlying OS error exactly when the spawn itself fails; and when all
spawns succeed the run completes and persists its report whatever the exit
codes were. -/
theorem C3_nonzero_exit_not_fatal :
    (∀ command args env killSignal chunks (code : Int), code ≠ 0 →
      measurePerformance command args env (.runs chunks (some code)) killSignal
        = .ok (measurePure command args env chunks (some code) killSignal)
      ∧ (measurePure command args env chunks (some code) killSignal).exitCode
          = some (some code))
    ∧ (∀ command args env killSignal err,
      measurePerformance command args env (.spawnFail err) killSignal = .error err)
    ∧ (∀ inp : RunInputs, inp.allSpawnOk = true →
      ∃ o, runOnce inp = .ok o
        ∧ FsOp.writeFile (resultsPathOf inp) (.report o.benchmarks) ∈ o.fsOps) := by
  refine ⟨fun _ _ _ _ _ _ _ => ⟨rfl, rfl⟩, fun _ _ _ _ _ => rfl, fun inp h => ?_⟩
  exact ⟨runPure inp, runOnce_allSpawnOk h, runPure_persist_mem inp⟩

/-- Witness for C3: exit code 2 on a concrete invocation, and a concrete run
with every spawn succeeding. -/
theorem C3_witness :
    ((2 : Int) ≠ 0
      ∧ measurePerformance "npx" ["tsc", "--noEmit"] measureEnv0 (.runs [] (some 2)) none
          = .ok (measurePure "npx" ["tsc", "--noEmit"] measureEnv0 [] (some 2) none)
      ∧ (measurePure "npx" ["tsc", "--noEmit"] measureEnv0 [] (some 2) none).exitCode
          = some (some 2))
    ∧ ((runInputs0 ["typeCheck"]).allSpawnOk = true
      ∧ ∃ o, runOnce (runInputs0 ["typeCheck"]) = .ok o
          ∧ FsOp.writeFile (resultsPathOf (runInputs0 ["typeCheck"]))
              (.report o.benchmarks) ∈ o.fsOps) := by
  have h1 := (C3_nonzero_exit_not_fatal.1) "npx" ["tsc", "--noEmit"] measureEnv0 none [] 2
    (by decide)
  have h2 := (C3_nonzero_exit_not_fatal.2.2) (runInputs0 ["typeCheck"]) rfl
  exact ⟨⟨by decide, h1⟩, ⟨rfl, h2⟩⟩

/-- C4: when every spawn succeeds — whatever the exit codes of the external
commands are — the run's filesystem trace ends with the recursive removal of
the run's scratch directory, after the report has been persisted; and a run
aborted by a spawn failure rejects without reaching cleanup (best-effort). -/
theorem C4_scratch_cleanup :
    (∀ inp : RunInputs, inp.allSpawnOk = true →
      ∃ o, runOnce inp = .ok o
        ∧ o.fsOps.getLast? = some (FsOp.rmRec (runTempDirOf inp))
        ∧ FsOp.writeFile (resultsPathOf inp) (.report o.benchmarks) ∈ o.fsOps)
    ∧ (∃ err, runOnce runInputsFail = .error err) := by
  constructor
  · intro inp h
    exact ⟨runPure inp, runOnce_allSpawnOk h, runPure_fsOps_last inp, runPure_persist_mem inp⟩
  · exact ⟨"spawn npm ENOENT", rfl⟩

/-- Witness for C4 at concrete inputs with a failing external command:
`linter` selected, its subprocess exiting 1. -/
theorem C4_witness :
    ({ runInputs0 ["linter"] with linterB := .runs ["error output"] (some 1) } :
        RunInputs).allSpawnOk = true
    ∧ ∃ o, runOnce { runInputs0 ["linter"] with linterB := .runs ["error output"] (some 1) }
          = .ok o
        ∧ o.fsOps.getLast? = some (FsOp.rmRec
            (runTempDirOf { runInputs0 ["linter"] with linterB := .runs ["error output"] (some 1) }))
        ∧ FsOp.writeFile
            (resultsPathOf { runInputs0 ["linter"] with linterB := .runs ["error output"] (some 1) })
            (.report o.benchmarks) ∈ o.fsOps :=
  ⟨rfl, C4_scratch_cleanup.1 _ rfl⟩

/-- C5: tasks execute (and are therefore recorded) in the fixed catalog
order, i.e. the report keys are the catalog order filtered by membership in
the selection; the order depends only on which tasks are selected, not on the
order of the selection list; and whenever both are selected, `cleanInstall`
comes immediately before `nextBuild` at the head. -/
theorem C5_catalog_order :
    ∀ inp : RunInputs, inp.allSpawnOk = true →
      ∃ o, runOnce inp = .ok o
        ∧ o.benchmarks.map Prod.fst
            = catalogOrder.filter (fun k => inp.testsToRun.contains k)
        ∧ (∀ inp₂ : RunInputs, inp₂.allSpawnOk = true →
            (∀ k, inp₂.testsToRun.contains k = inp.testsToRun.contains k) →
            ∃ o₂, runOnce inp₂ = .ok o₂
              ∧ o₂.benchmarks.map Prod.fst = o.benchmarks.map Prod.fst)
        ∧ (inp.testsToRun.contains "cleanInstall" = true →
           inp.testsToRun.contains "nextBuild" = true →
            ∃ rest, o.benchmarks.map Prod.fst = "cleanInstall" :: "nextBuild" :: rest) := by
  intro inp h
  refine ⟨runPure inp, runOnce_allSpawnOk h, runPure_benchmark_keys inp, ?_, ?_⟩
  · intro inp₂ h₂ hsame
    refine ⟨runPure inp₂, runOnce_allSpawnOk h₂, ?_⟩
    rw [runPure_benchmark_keys inp₂, runPure_benchmark_keys inp]
    exact List.filter_congr (fun k _ => hsame k)
  · intro hc hn
    rw [runPure_benchmark_keys inp]
    have hcm : "cleanInstall" ∈ inp.testsToRun := by simpa using hc
    have hnm : "nextBuild" ∈ inp.testsToRun := by simpa using hn
    exact ⟨List.filter (fun k => inp.testsToRun.contains k)
        ["typeCheck", "linter", "imageProcessing", "fileIo", "heavyScript"],
      by simp [catalogOrder, List.filter_cons, hcm, hnm]⟩

/-- Witness for C5: the selection lists `nextBuild` before `cleanInstall`,
yet the report keys come out in catalog order. -/
theorem C5_witness :
    (runInputs0 ["nextBuild", "cleanInstall"]).allSpawnOk = true
    ∧ ∃ o, runOnce (runInputs0 ["nextBuild", "cleanInstall"]) = .ok o
        ∧ o.benchmarks.map Prod.fst = ["cleanInstall", "nextBuild"] := by
  refine ⟨rfl, ?_⟩
  obtain ⟨o, h1, h2, _, _⟩ := C5_catalog_order (runInputs0 ["nextBuild", "cleanInstall"]) rfl
  refine ⟨o, h1, ?_⟩
  rw [h2]
  decide

/-- C6 counterexample: at a concrete environment the image-processing task's
subtask keys are not `createImages` and `resizeImages` — the first key the
code writes is `generateImages`. -/
theorem C6_counterexample :
    ((runImageProcessingTest (pathJoin "benchmark-me" "temp-0") imageEnv0).1.subTasks.map
        (fun l => l.map Prod.fst)) ≠ some ["createImages", "resizeImages"] := by
  decide

/-- C6 (amended): the image-processing task records 200 items processed, its
subtask mapping has exactly the keys `generateImages` and `resizeImages` in
that order, and — the image library succeeding on every input — the resized
output files are 200 pairwise-distinct paths, all present afterwards. -/
theorem C6_image_processing (dir : String) (env : ImageEnv) :
    (runImageProcessingTest dir env).1.amountOfProcessedItems = some 200
    ∧ ((runImageProcessingTest dir env).1.subTasks.map (fun l => l.map Prod.fst))
        = some ["generateImages", "resizeImages"]
    ∧ ((List.range 200).map (resizedImageFileName (pathJoin dir "temp_images"))).length = 200
    ∧ ((List.range 200).map (resizedImageFileName (pathJoin dir "temp_images"))).Nodup
    ∧ ∀ fs, ∀ p ∈ (List.range 200).map (resizedImageFileName (pathJoin dir "temp_images")),
        p ∈ applyFsOps fs (runImageProcessingTest dir env).2 := by
  refine ⟨rfl, rfl, by simp,
    List.Nodup.map (resizedImageFileName_injective _) (List.nodup_range _), ?_⟩
  intro fs p hp
  obtain ⟨i, hi, rfl⟩ := List.mem_map.mp hp
  apply mem_applyFsOps_of_write
  · intro q hq
    simp only [runImageProcessingTest, List.mem_cons, List.mem_append, List.mem_map] at hq
    rcases hq with h | ⟨⟨_, _, h⟩ | ⟨_, _, h⟩⟩ <;> simp at h
  · show FsOp.writeFile (resizedImageFileName (pathJoin dir "temp_images") i)
        (.resizedImage 800) ∈ (runImageProcessingTest dir env).2
    simp only [runImageProcessingTest, List.mem_cons, List.mem_append, List.mem_map]
    exact Or.inr (Or.inr ⟨i, hi, rfl⟩)

/-- Witness for C6 (amended) at a concrete input: the first resized output
path is among the 200 and is present in the final filesystem. -/
theorem C6_witness :
    resizedImageFileName (pathJoin "run" "temp_images") 0
        ∈ (List.range 200).map (resizedImageFileName (pathJoin "run" "temp_images"))
    ∧ resizedImageFileName (pathJoin "run" "temp_images") 0
        ∈ applyFsOps [] (runImageProcessingTest "run" imageEnv0).2 := by
  have hm : resizedImageFileName (pathJoin "run" "temp_images") 0
      ∈ (List.range 200).map (resizedImageFileName (pathJoin "run" "temp_images")) :=
    List.mem_map.mpr ⟨0, by simp, rfl⟩
  exact ⟨hm, (C6_image_processing "run" imageEnv0).2.2.2.2 [] _ hm⟩

/-- C7: the file I/O task records 10000 items and the two subtask durations
(non-negative under monotone clocks); it writes the 10000 distinct files
`file-0.txt` … `file-9999.txt` in sequential batches of at most 500, each
with the same 10000-character content; and after the trace completes the
scratch subdirectory and every file in it are gone, whatever was on disk
before. -/
theorem C7_file_io (dir : String) (env : FileIoEnv)
    (hc : env.createStart ≤ env.createEnd) (hd : env.deleteStart ≤ env.deleteEnd) :
    (runFileIoTest dir env).1.amountOfProcessedItems = some 10000
    ∧ (runFileIoTest dir env).1.subTasks
        = some [("createFiles", ⟨round2 ((env.createEnd - env.createStart) / 1000)⟩),
                ("deleteFiles", ⟨round2 ((env.deleteEnd - env.deleteStart) / 1000)⟩)]
    ∧ 0 ≤ round2 ((env.createEnd - env.createStart) / 1000)
    ∧ 0 ≤ round2 ((env.deleteEnd - env.deleteStart) / 1000)
    ∧ (∀ b ∈ batchLoop 10000 0, b.length ≤ 500)
    ∧ (batchLoop 10000 0).flatten = List.range' 0 10000
    ∧ ((batchLoop 10000 0).flatten.map (fileIoFileName (pathJoin dir "temp_files"))).Nodup
    ∧ fileContent.length = 10000
    ∧ (∀ fs, pathJoin dir "temp_files" ∉ applyFsOps fs (runFileIoTest dir env).2
        ∧ ∀ j, fileIoFileName (pathJoin dir "temp_files") j
            ∉ applyFsOps fs (runFileIoTest dir env).2) := by
  have hflat : (batchLoop 10000 0).flatten = List.range' 0 10000 := by
    have := batchLoop_flatten 10000 10000 0 (by omega)
    simpa using this
  refine ⟨rfl, rfl, ?_, ?_, ?_, hflat, ?_, ?_, ?_⟩
  · exact round2_nonneg (div_nonneg (by linarith) (by norm_num))
  · exact round2_nonneg (div_nonneg (by linarith) (by norm_num))
  · exact batchLoop_batch_le 10000 10000 0 (by omega)
  · rw [hflat]
    exact List.Nodup.map (fileIoFileName_injective _) (List.nodup_range' 0 10000)
  · show (String.mk (List.replicate 10000 'a')).length = 10000
    rw [show (String.mk (List.replicate 10000 'a')).length
        = (List.replicate 10000 'a').length from rfl]
    exact List.length_replicate 10000 'a'
  · intro fs
    have hshape : (runFileIoTest dir env).2
        = (FsOp.mkdirRec (pathJoin dir "temp_files")
            :: (batchLoop 10000 0).flatten.map
              (fun j => FsOp.writeFile (fileIoFileName (pathJoin dir "temp_files") j)
                (.text fileContent)))
          ++ [FsOp.rmRec (pathJoin dir "temp_files")] := rfl
    rw [hshape, applyFsOps_append, applyFsOps_single]
    exact ⟨not_mem_rmRec (pathWithin_self _),
      fun j => not_mem_rmRec (pathWithin_pathJoin _ _)⟩

/-- Witness for C7 at a concrete project directory and environment with
monotone (equal) clock readings. -/
theorem C7_witness :
    fileIoEnv0.createStart ≤ fileIoEnv0.createEnd
    ∧ fileIoEnv0.deleteStart ≤ fileIoEnv0.deleteEnd
    ∧ (runFileIoTest "proj" fileIoEnv0).1.amountOfProcessedItems = some 10000
    ∧ ∀ fs, pathJoin "proj" "temp_files" ∉ applyFsOps fs (runFileIoTest "proj" fileIoEnv0).2 := by
  have h := C7_file_io "proj" fileIoEnv0 (le_refl 0) (le_refl 0)
  exact ⟨le_refl 0, le_refl 0, h.1, fun fs => (h.2.2.2.2.2.2.2.2 fs).1⟩

/-- C8: in a run that selects the build task without the install task, when
the confirmation collaborator answers yes, a plain `npm install` invocation
happens immediately before `npx next build` (and before any later task's
invocation), and the persisted benchmarks mapping has no `cleanInstall`
key. -/
theorem C8_build_without_install (inp : RunInputs) (h : inp.allSpawnOk = true)
    (hnb : inp.testsToRun.contains "nextBuild" = true)
    (hci : inp.testsToRun.contains "cleanInstall" = false)
    (hcf : inp.confirmInstall = true) :
    ∃ o rest, runOnce inp = .ok o
      ∧ o.invocations = ("npm", installArgsOf inp.useLegacyPeerDeps)
          :: ("npx", ["next", "build"]) :: rest
      ∧ "cleanInstall" ∉ o.benchmarks.map Prod.fst := by
  have hinv : (runPure inp).invocations
      = ("npm", installArgsOf inp.useLegacyPeerDeps) :: ("npx", ["next", "build"])
        :: ((if inp.testsToRun.contains "typeCheck" then [("npx", ["tsc", "--noEmit"])] else [])
          ++ (if inp.testsToRun.contains "linter" then [("npx", ["next", "lint"])] else [])) := by
    rw [runPure_invocations, hci, hnb, hcf]
    simp
  refine ⟨runPure inp, _, runOnce_allSpawnOk h, hinv, ?_⟩
  rw [runPure_benchmark_keys]
  intro hmem
  have hcontains := List.of_mem_filter hmem
  rw [hci] at hcontains
  exact absurd hcontains (by simp)

/-- Witness for C8: only `nextBuild` selected, confirmation yes. -/
theorem C8_witness :
    (runInputs0 ["nextBuild"]).allSpawnOk = true
    ∧ (runInputs0 ["nextBuild"]).testsToRun.contains "nextBuild" = true
    ∧ (runInputs0 ["nextBuild"]).testsToRun.contains "cleanInstall" = false
    ∧ (runInputs0 ["nextBuild"]).confirmInstall = true
    ∧ ∃ o rest, runOnce (runInputs0 ["nextBuild"]) = .ok o
        ∧ o.invocations = ("npm", installArgsOf (runInputs0 ["nextBuild"]).useLegacyPeerDeps)
            :: ("npx", ["next", "build"]) :: rest
        ∧ "cleanInstall" ∉ o.benchmarks.map Prod.fst :=
  ⟨rfl, by decide, by decide, rfl,
    C8_build_without_install (runInputs0 ["nextBuild"]) rfl (by decide) (by decide) rfl⟩

/-- C9: one run with only the heavy-computation task selected yields exactly
one report whose benchmarks mapping has the single key `heavyScript`, whose
record has no items counter and no exit code, and no subprocess invocation
occurs. -/
theorem C9_single_heavy_run (inp : RunInputs) (hsel : inp.testsToRun = ["heavyScript"]) :
    ∃ o, runMany [inp] = .ok [o]
      ∧ o.benchmarks = [("heavyScript", runHeavyScript inp.heavyEnv)]
      ∧ o.benchmarks.map Prod.fst = ["heavyScript"]
      ∧ (runHeavyScript inp.heavyEnv).amountOfProcessedItems = none
      ∧ (runHeavyScript inp.heavyEnv).exitCode = none
      ∧ o.invocations = [] := by
  have h1 : "cleanInstall" ∉ inp.testsToRun := by rw [hsel]; decide
  have h2 : "nextBuild" ∉ inp.testsToRun := by rw [hsel]; decide
  have h3 : "typeCheck" ∉ inp.testsToRun := by rw [hsel]; decide
  have h4 : "linter" ∉ inp.testsToRun := by rw [hsel]; decide
  have h5 : "imageProcessing" ∉ inp.testsToRun := by rw [hsel]; decide
  have h6 : "fileIo" ∉ inp.testsToRun := by rw [hsel]; decide
  have h7 : "heavyScript" ∈ inp.testsToRun := by rw [hsel]; decide
  have hro : runOnce inp = .ok
      { benchmarks := [("heavyScript", runHeavyScript inp.heavyEnv)]
        invocations := []
        fsOps := [FsOp.mkdirRec (runTempDirOf inp),
                  FsOp.writeFile (resultsPathOf inp)
                    (.report [("heavyScript", runHeavyScript inp.heavyEnv)]),
                  FsOp.rmRec (runTempDirOf inp)] } := by
    unfold runOnce stepCleanInstall stepNextBuild stepTypeCheck stepLinter
      stepImageProcessing stepFileIo stepHeavyScript
    simp [h1, h2, h3, h4, h5, h6, h7, ok_bind]
  exact ⟨_, runMany_singleton hro, rfl, rfl, rfl, rfl, rfl⟩

/-- Witness for C9 at concrete inputs. -/
theorem C9_witness :
    (runInputs0 ["heavyScript"]).testsToRun = ["heavyScript"]
    ∧ ∃ o, runMany [runInputs0 ["heavyScript"]] = .ok [o]
        ∧ o.benchmarks = [("heavyScript", runHeavyScript (runInputs0 ["heavyScript"]).heavyEnv)]
        ∧ o.benchmarks.map Prod.fst = ["heavyScript"]
        ∧ (runHeavyScript (runInputs0 ["heavyScript"]).heavyEnv).amountOfProcessedItems = none
        ∧ (runHeavyScript (runInputs0 ["heavyScript"]).heavyEnv).exitCode = none
        ∧ o.invocations = [] :=
  ⟨rfl, C9_single_heavy_run (runInputs0 ["heavyScript"]) rfl⟩

/-- C10: `isPrime` accepts exactly the prime numbers, and `findPrimes max` is
the strictly increasing enumeration of all primes up to `max`. -/
theorem C10_prime_enumeration :
    (∀ n : Nat, isPrime n = true ↔ Nat.Prime n)
    ∧ (∀ max : Nat, List.Sorted (· < ·) (findPrimes max)
        ∧ ∀ p : Nat, p ∈ findPrimes max ↔ Nat.Prime p ∧ p ≤ max) :=
  ⟨isPrime_iff_prime,
   fun max => ⟨findPrimes_sorted max, fun p => mem_findPrimes max p⟩⟩

end Benchmark
